import Mathlib

/-!
Shallow embedding of the patient-intake relay (token codec, payload
normalizer, SMS phone formatting, pediatric multi-value collapse), with
theorems settling the specification claims against it.

Strings manipulated character-by-character by the Python code are embedded
as `List Char`; Python `None` / `str` / `list` field values are embedded as
the inductive `FieldVal`; Python dicts are embedded as association lists
looked up by `lookupA` (first binding wins, as in a dict where keys are
unique).
-/

/-- Characters for which Python `str.isspace()` holds (the set stripped by
`str.strip()`): ASCII whitespace 9-13, 28-31, 32, NEL, NBSP and the Unicode
space separators. -/
def isPySpace (c : Char) : Bool :=
  ([9, 10, 11, 12, 13, 28, 29, 30, 31, 32, 0x85, 0xA0, 0x1680,
    0x2028, 0x2029, 0x202F, 0x205F, 0x3000] : List Nat).contains c.toNat
  || (0x2000 ≤ c.toNat && c.toNat ≤ 0x200A)

/-- Leading-whitespace removal, as in Python `str.lstrip()`. -/
def pyLstrip (l : List Char) : List Char := l.dropWhile isPySpace

/-- Trailing-whitespace removal, as in Python `str.rstrip()`. -/
def pyRstrip (l : List Char) : List Char := (l.reverse.dropWhile isPySpace).reverse

/-- Python `str.strip()`: remove whitespace from both ends. -/
def pyStrip (l : List Char) : List Char := pyRstrip (pyLstrip l)

/-- The control-character removal of `_sanitize_field`:
`''.join(char for char in sanitized if ord(char) >= 32)`. -/
def stripCtl (l : List Char) : List Char := l.filter (fun c => 32 ≤ c.toNat)

/-- A Python value stored in a form-data dict or in the structured output:
a string, a list of strings (multi-valued field), or `None`. -/
inductive FieldVal where
  | vstr (s : List Char)
  | vlist (xs : List (List Char))
  | vnone
  deriving DecidableEq, Repr

/-- Python truthiness for a `FieldVal`: nonempty string or nonempty list. -/
def pyTruthy : FieldVal → Bool
  | .vstr s => !s.isEmpty
  | .vlist xs => !xs.isEmpty
  | .vnone => false

/-- Embedding of `MultipartConverter._sanitize_field` (multipart_converter.py
lines 104-119): falsy values become `None`; a string is stripped of outer
whitespace, then of control characters, and becomes `None` if the result is
empty; non-string values pass through unchanged. -/
def _sanitize_field (value : FieldVal) : FieldVal :=
  if !pyTruthy value then .vnone
  else
    match value with
    | .vstr s =>
        let sanitized := pyStrip s
        let sanitized2 := stripCtl sanitized
        if sanitized2.isEmpty then .vnone else .vstr sanitized2
    | v => v

/-- Dict lookup on an association list: the first binding for the key. -/
def lookupA {β : Type} (l : List (String × β)) (k : String) : Option β :=
  match l with
  | [] => none
  | kv :: rest => if kv.1 = k then some kv.2 else lookupA rest k

/-! ## Token codec (token_manager.py) -/

/-- The claims dict built by `generate_token` (token_manager.py lines 23-28). -/
structure Claims where
  patient_id : String
  clinic_id : String
  created_at : Int
  nonce : String
  deriving DecidableEq, Repr

/-- The deserialized payload carried by a signed token, classified by how
`validate_token` reacts to it.  `generate_token` only ever produces
`claims`; the other constructors embed the payloads an arbitrary signed
blob can deserialize to:
* `claimsBadIso`: a dict whose `created_at` is a string that
  `datetime.fromisoformat` rejects (raises `ValueError`, which is caught);
* `dictNoCreatedAt`: a dict without a `created_at` key (`payload['created_at']`
  raises `KeyError`, which is not caught);
* `createdAtNotString`: a dict whose `created_at` is not a string
  (`fromisoformat` raises `TypeError`, not caught);
* `jsonNonDict`: valid JSON that is not a dict (`payload['created_at']`
  raises `TypeError`, not caught);
* `notJson`: signed bytes that do not decode as JSON (`serializer.loads`
  raises `BadPayload`, not caught). -/
inductive TokenBody where
  | claims (c : Claims)
  | claimsBadIso
  | dictNoCreatedAt (keys : List String)
  | createdAtNotString
  | jsonNonDict
  | notJson
  deriving DecidableEq, Repr

/-- An authenticated signature over a payload: itsdangerous' HMAC is modelled
as the (secret, payload, timestamp) triple itself, so a signature matches
exactly when it was produced with the same secret over the same payload and
timestamp. -/
structure Sig where
  key : String
  body : TokenBody
  ts : Int
  deriving DecidableEq, Repr

/-- Produce the signature for a payload at a signing timestamp. -/
def sign (secret : String) (body : TokenBody) (ts : Int) : Sig :=
  ⟨secret, body, ts⟩

/-- A token as produced by `URLSafeTimedSerializer.dumps`: the serialized
payload, the signature-embedded timestamp, and the signature. -/
structure Token where
  body : TokenBody
  ts : Int
  sig : Sig
  deriving DecidableEq, Repr

/-- `TokenManager.token_expiry = 24 * 60 * 60` (token_manager.py line 15). -/
def token_expiry : Int := 24 * 60 * 60

/-- Embedding of `TokenManager.generate_token` (token_manager.py lines 17-32):
builds the claims payload (with `created_at` the current time and a random
nonce, both passed explicitly here) and signs it.  There is no validation of
`patient_identifier`. -/
def generate_token (secret : String) (now : Int) (nonce : String)
    (patient_identifier : String) (clinic_id : String) : Token :=
  let payload := TokenBody.claims ⟨patient_identifier, clinic_id, now, nonce⟩
  ⟨payload, now, sign secret payload now⟩

/-- How a Python exception escaping `validate_token` is classified. -/
inductive PyExn where
  | badPayload
  | keyError
  | typeError
  deriving DecidableEq, Repr

/-- Outcome of `validate_token`: the returned payload, the `None` return, or
an uncaught exception propagating to the caller. -/
inductive ValidateResult where
  | ok (c : Claims)
  | invalid
  | raised (e : PyExn)
  deriving DecidableEq, Repr

/-- Embedding of `TokenManager.validate_token` (token_manager.py lines 34-51).
`serializer.loads(token, max_age=token_expiry)` checks the signature, then
rejects when the signature age strictly exceeds `max_age`, then deserializes
the payload.  `SignatureExpired`, `BadSignature` and `ValueError` are caught
and collapse to `None` (`invalid`); `BadPayload`, `KeyError` and `TypeError`
are not caught and propagate (`raised`).  The redundant second check
compares `now - created_at` against `timedelta(hours=24)`. -/
def validate_token (secret : String) (now : Int) (token : Token) : ValidateResult :=
  if token.sig ≠ sign secret token.body token.ts then .invalid
  else if now - token.ts > token_expiry then .invalid
  else
    match token.body with
    | .notJson => .raised .badPayload
    | .jsonNonDict => .raised .typeError
    | .dictNoCreatedAt _ => .raised .keyError
    | .createdAtNotString => .raised .typeError
    | .claimsBadIso => .invalid
    | .claims c => if now - c.created_at > 24 * 60 * 60 then .invalid else .ok c

/-! ## SMS phone formatting (sms_service.py) -/

/-- Embedding of `SMSService.format_phone_number` (sms_service.py lines
25-40): keep only digits; a 10-digit number gets a leading `1`; an 11-digit
number starting with `1` passes; anything else raises `ValueError`; the
result is `+` followed by the digits. -/
def format_phone_number (phone_number : List Char) : Except String (List Char) :=
  let digits_only := phone_number.filter Char.isDigit
  if digits_only.length = 10 then Except.ok ('+' :: '1' :: digits_only)
  else if digits_only.length = 11 ∧ digits_only.head? = some '1' then
    Except.ok ('+' :: digits_only)
  else Except.error "Invalid phone number format"

/-! ## Pediatric multi-value collapse (app.py lines 444-455) -/

/-- A value in the pediatric intake dict after the collapse loop: a bare
string or a list of strings. -/
inductive PedVal where
  | s (v : List Char)
  | l (vs : List (List Char))
  deriving DecidableEq, Repr

/-- The collapse applied per field in `submit_pediatric_intake`: a
one-element list becomes its bare element, any other list is kept as-is. -/
def collapse_field (v : List (List Char)) : PedVal :=
  match v with
  | [x] => .s x
  | xs => .l xs

/-- The loop building `pediatric_data` from `request.form.to_dict(flat=False)`
(every raw value is a list of strings there): apply `collapse_field` to each
entry. -/
def build_pediatric_data (form_data : List (String × List (List Char))) :
    List (String × PedVal) :=
  form_data.map (fun kv => (kv.1, collapse_field kv.2))

/-! ## Payload normalizer (multipart_converter.py) -/

/-- A section of the converter's field mapping: the section name in the
output, the raw field names consulted, and the renaming applied to a raw
field name to obtain the output key. -/
structure SectionSpec where
  name : String
  fields : List String
  outKey : String → String

/-- Replace every non-overlapping occurrence of `pat` (nonempty) by `repl`,
scanning left to right, as Python `str.replace` does.  The first argument is
recursion fuel, at least the length of the scanned list. -/
def replaceFuel (pat repl : List Char) : Nat → List Char → List Char
  | 0, s => s
  | _, [] => []
  | fuel + 1, c :: rest =>
    if pat.isPrefixOf (c :: rest) then
      repl ++ replaceFuel pat repl fuel ((c :: rest).drop pat.length)
    else c :: replaceFuel pat repl fuel rest

/-- Python `s.replace(pat, repl)` for a nonempty pattern. -/
def replaceAll (pat repl s : List Char) : List Char :=
  replaceFuel pat repl s.length s

/-- The renaming applied in the emergency-contact loop:
`field.replace('emergency_contact_', '')` (multipart_converter.py line 59). -/
def emergencyOutKey (f : String) : String :=
  ⟨replaceAll "emergency_contact_".data [] f.data⟩

/-- The seven per-section loops of `convert_form_to_json`
(multipart_converter.py lines 37-78), as a mapping table: section name,
raw field list, output-key renaming. -/
def sectionSpecs : List SectionSpec :=
  [⟨"personal_information", ["first_name", "last_name", "date_of_birth"], id⟩,
   ⟨"contact_information", ["phone", "email"], id⟩,
   ⟨"address", ["street_address", "city", "state", "zip_code"], id⟩,
   ⟨"emergency_contact",
     ["emergency_contact_name", "emergency_contact_phone",
      "emergency_contact_relationship"], emergencyOutKey⟩,
   ⟨"insurance_information",
     ["insurance_provider", "insurance_id", "primary_physician"], id⟩,
   ⟨"medical_information",
     ["current_medications", "allergies", "medical_history"], id⟩,
   ⟨"visit_information", ["reason_for_visit"], id⟩]

/-- One per-section loop body: for each raw field name, if the field is
present in `form_data` and truthy, bind the renamed key to the sanitized
value; otherwise add nothing. -/
def procFields (fields : List String) (ren : String → String)
    (form_data : List (String × FieldVal)) : List (String × FieldVal) :=
  fields.filterMap (fun field =>
    match lookupA form_data field with
    | some v => if pyTruthy v then some (ren field, _sanitize_field v) else none
    | none => none)

/-- The section dict assembled for one `SectionSpec`. -/
def procSection (sp : SectionSpec) (form_data : List (String × FieldVal)) :
    List (String × FieldVal) :=
  procFields sp.fields sp.outKey form_data

/-- The `structured_data` dict after the seven loops (before
`processing_info` is added): every section key is present, possibly bound
to an empty dict. -/
def structured_sections (form_data : List (String × FieldVal)) :
    List (String × List (String × FieldVal)) :=
  sectionSpecs.map (fun sp => (sp.name, procSection sp form_data))

/-- The `total_fields` count (multipart_converter.py lines 88-89): number of
keys across all (dict) sections of `structured_data`. -/
def total_fields (secs : List (String × List (String × FieldVal))) : Nat :=
  (secs.map (fun s => s.2.length)).sum

/-- The per-field completion test of `_calculate_completeness_score`
(line 154): `field_value and str(field_value).strip()`.  For a string this
is nonemptiness of the stripped string; for a list, `str` of a nonempty
list is a nonempty bracketed repr, so truthiness alone decides; `None` is
falsy. -/
def completedField (v : FieldVal) : Bool :=
  pyTruthy v &&
    match v with
    | .vstr s => !(pyStrip s).isEmpty
    | .vlist _ => true
    | .vnone => false

/-- `sections_to_check` of `_calculate_completeness_score`
(multipart_converter.py lines 147-148). -/
def sections_to_check : List String :=
  ["personal_information", "contact_information", "address",
   "emergency_contact", "visit_information"]

/-- The `(total_fields, completed_fields)` accumulation of
`_calculate_completeness_score` (lines 150-155): for each checked section
present in the data, count every key, and count the keys whose value passes
`completedField`. -/
def scoreCounts (data : List (String × List (String × FieldVal))) : Nat × Nat :=
  sections_to_check.foldl (fun acc sec =>
    match lookupA data sec with
    | some fs =>
        (acc.1 + fs.length, acc.2 + (fs.filter (fun kv => completedField kv.2)).length)
    | none => acc) (0, 0)

/-- Rounding to two decimal places over ℚ.  Python's `round` is
round-half-even on a float; here the score is `completed/total * 100` with
`total ≤ 13`, so `score * 100 = completed * 10000 / total` can never land
exactly on a half (that would need the 2-adic valuation of
`completed * 20000 / total` to be zero, impossible for `total ≤ 13`), and
nearest-integer rounding is tie-free and agrees with Python. -/
def round2 (q : ℚ) : ℚ := ((round (q * 100) : ℤ) : ℚ) / 100

/-- Embedding of `MultipartConverter._calculate_completeness_score`
(multipart_converter.py lines 139-164): `completed/total * 100` rounded to
two decimals, and `0` when no field is defined. -/
def _calculate_completeness_score
    (data : List (String × List (String × FieldVal))) : ℚ :=
  let tc := scoreCounts data
  if tc.1 = 0 then 0 else round2 ((tc.2 : ℚ) / (tc.1 : ℚ) * 100)

/-- The `processing_info` block (multipart_converter.py lines 85-91). -/
structure ProcessingInfo where
  processed_at : String
  converter_version : String
  total_fields : Nat
  data_quality_score : ℚ
  deriving DecidableEq, Repr

/-- A value of the final document dict: a field section or the
`processing_info` block. -/
inductive SecVal where
  | fieldsSec (fs : List (String × FieldVal))
  | infoSec (pi : ProcessingInfo)
  deriving DecidableEq, Repr

/-- The section-retention test of the cleanup comprehension
(multipart_converter.py lines 94-95): `v and (not isinstance(v, dict) or
any(v.values()))`.  A field section survives when it is a nonempty dict with
at least one truthy value; `processing_info` always survives since its
`converter_version` entry `'2.0'` is truthy. -/
def sectionKept : SecVal → Bool
  | .fieldsSec fs => !fs.isEmpty && fs.any (fun kv => pyTruthy kv.2)
  | .infoSec _ => true

/-- Embedding of `MultipartConverter.convert_form_to_json`
(multipart_converter.py lines 14-98) with `files=None`, as called from
app.py line 376: assemble the seven sections, append `processing_info`
(`processed_at` is the clock value passed as `now`), then drop the sections
that fail `sectionKept`. -/
def convert_form_to_json (now : String) (form_data : List (String × FieldVal)) :
    List (String × SecVal) :=
  let sd := structured_sections form_data
  let pinfo : ProcessingInfo :=
    ⟨now, "2.0", total_fields sd, _calculate_completeness_score sd⟩
  let allSecs := sd.map (fun s => (s.1, SecVal.fieldsSec s.2))
      ++ [("processing_info", SecVal.infoSec pinfo)]
  allSecs.filter (fun kv => sectionKept kv.2)

/-- The completeness score recorded in the returned document, read back out
of its `processing_info` block. -/
def docScore (doc : List (String × SecVal)) : Option ℚ :=
  match lookupA doc "processing_info" with
  | some (SecVal.infoSec pinfo) => some pinfo.data_quality_score
  | _ => none

/-- The field dict stored in the returned document for a section name. -/
def sectionFields (doc : List (String × SecVal)) (sec : String) :
    Option (List (String × FieldVal)) :=
  match lookupA doc sec with
  | some (SecVal.fieldsSec fs) => some fs
  | _ => none

/-- The value bound to `key` inside section `sec` of the returned document,
when both exist. -/
def sectionLookup (doc : List (String × SecVal)) (sec key : String) :
    Option FieldVal :=
  match sectionFields doc sec with
  | some fs => lookupA fs key
  | none => none

/-- Modelled from the spec's scoring formula: the raw field names belonging
to the required-ish sections (personal identity, contact, address,
emergency contact, visit reason). -/
def requiredishFields : List String :=
  ["first_name", "last_name", "date_of_birth",
   "phone", "email",
   "street_address", "city", "state", "zip_code",
   "emergency_contact_name", "emergency_contact_phone",
   "emergency_contact_relationship",
   "reason_for_visit"]

/-- A raw field counts as defined (a key is placed for it) when it is
present in the submission with a truthy value. -/
def rawDefined (form_data : List (String × FieldVal)) (f : String) : Bool :=
  match lookupA form_data f with
  | some v => pyTruthy v
  | none => false

/-- A raw field counts as populated (non-empty) when it is defined and its
sanitized value passes the completion test. -/
def fieldCompleted (form_data : List (String × FieldVal)) (f : String) : Bool :=
  match lookupA form_data f with
  | some v => pyTruthy v && completedField (_sanitize_field v)
  | none => false

/-- Modelled from the spec's scoring formula: the number of defined
required-ish fields of a submission. -/
def specDefinedCount (form_data : List (String × FieldVal)) : Nat :=
  (requiredishFields.filter (rawDefined form_data)).length

/-- Modelled from the spec's scoring formula: the number of populated
required-ish fields of a submission. -/
def specNonEmptyCount (form_data : List (String × FieldVal)) : Nat :=
  (requiredishFields.filter (fieldCompleted form_data)).length

/-- The value `convert_form_to_json` binds for a raw field before section
cleanup: present exactly when the raw field is present and truthy, and then
bound to the sanitized value (which may be `None`). -/
def rawFieldPlacement (form_data : List (String × FieldVal)) (f : String) :
    Option FieldVal :=
  match lookupA form_data f with
  | some v => if pyTruthy v then some (_sanitize_field v) else none
  | none => none

/-! ## Concrete example submissions used by the claims -/

/-- A submission carrying only the reason-for-visit field. -/
def exVisitOnly : List (String × FieldVal) :=
  [("reason_for_visit", .vstr "checkup".toList)]

/-- A submission defining six required-ish fields of which three are
populated (the other three are a single space, which is truthy raw but
sanitizes to `None`). -/
def exThreeOfSix : List (String × FieldVal) :=
  [("first_name", .vstr "Jane".toList), ("last_name", .vstr "Doe".toList),
   ("phone", .vstr "555".toList), ("date_of_birth", .vstr [' ']),
   ("email", .vstr [' ']), ("street_address", .vstr [' '])]

/-- A submission whose `date_of_birth` is whitespace only: truthy raw, so a
key is placed, but the sanitized value is `None`. -/
def exNullPlaceholder : List (String × FieldVal) :=
  [("first_name", .vstr "Jane".toList), ("date_of_birth", .vstr [' '])]

/-! ## Helper lemmas about stripping and association lists -/

theorem exists_append_dropWhile (p : Char → Bool) (l : List Char) :
    ∃ t, t ++ l.dropWhile p = l := by
  induction l with
  | nil => exact ⟨[], rfl⟩
  | cons a l ih =>
    by_cases h : p a
    · obtain ⟨t, ht⟩ := ih
      exact ⟨a :: t, by simp [List.dropWhile, h, ht]⟩
    · exact ⟨[], by simp [List.dropWhile, h]⟩

theorem mem_of_mem_dropWhile (p : Char → Bool) (l : List Char) (c : Char)
    (h : c ∈ l.dropWhile p) : c ∈ l := by
  obtain ⟨t, ht⟩ := exists_append_dropWhile p l
  rw [← ht]
  exact List.mem_append_right t h

theorem head?_dropWhile_not (p : Char → Bool) (l : List Char) (a : Char)
    (h : (l.dropWhile p).head? = some a) : p a = false := by
  induction l with
  | nil => simp [List.dropWhile] at h
  | cons b l ih =>
    by_cases hb : p b
    · rw [List.dropWhile_cons_of_pos hb] at h
      exact ih h
    · rw [List.dropWhile_cons_of_neg hb] at h
      simp at h
      subst h
      simpa using hb
    
theorem dropWhile_eq_self_of_head? (p : Char → Bool) (l : List Char)
    (h : ∀ a, l.head? = some a → p a = false) : l.dropWhile p = l := by
  cases l with
  | nil => rfl
  | cons b l =>
    have hb := h b rfl
    simp [List.dropWhile, hb]

theorem exists_append_pyRstrip (l : List Char) : ∃ u, pyRstrip l ++ u = l := by
  obtain ⟨t, ht⟩ := exists_append_dropWhile isPySpace l.reverse
  refine ⟨t.reverse, ?_⟩
  have := congrArg List.reverse ht
  simpa [pyRstrip, List.reverse_append] using this

theorem pyLstrip_pyRstrip_pyLstrip (l : List Char) :
    pyLstrip (pyRstrip (pyLstrip l)) = pyRstrip (pyLstrip l) := by
  apply dropWhile_eq_self_of_head?
  intro a ha
  obtain ⟨u, hu⟩ := exists_append_pyRstrip (pyLstrip l)
  have h2 : (pyLstrip l).head? = some a := by
    rcases hx : pyRstrip (pyLstrip l) with _ | ⟨b, xs⟩
    · rw [hx] at ha; simp at ha
    · rw [hx] at ha hu
      simp at ha
      rw [← hu, ← ha]
      rfl
  exact head?_dropWhile_not isPySpace l a h2

theorem pyRstrip_idem (l : List Char) : pyRstrip (pyRstrip l) = pyRstrip l := by
  simp [pyRstrip, List.reverse_reverse, List.dropWhile_idempotent]

theorem pyStrip_idem (l : List Char) : pyStrip (pyStrip l) = pyStrip l := by
  unfold pyStrip
  rw [pyLstrip_pyRstrip_pyLstrip, pyRstrip_idem]

theorem mem_of_mem_pyStrip (l : List Char) (c : Char) (h : c ∈ pyStrip l) : c ∈ l := by
  unfold pyStrip pyRstrip at h
  rw [List.mem_reverse] at h
  have h2 := mem_of_mem_dropWhile _ _ _ h
  rw [List.mem_reverse] at h2
  exact mem_of_mem_dropWhile _ _ _ h2

theorem stripCtl_eq_self (l : List Char) (h : ∀ c ∈ l, 32 ≤ c.toNat) :
    stripCtl l = l := by
  unfold stripCtl
  rw [List.filter_eq_self]
  intro a ha
  simpa using h a ha

theorem lookupA_append {β : Type} (l₁ l₂ : List (String × β)) (k : String) :
    lookupA (l₁ ++ l₂) k =
      match lookupA l₁ k with
      | some v => some v
      | none => lookupA l₂ k := by
  induction l₁ with
  | nil => rfl
  | cons kv rest ih =>
    by_cases h : kv.1 = k
    · simp [lookupA, h]
    · simp [lookupA, h, ih]

theorem lookupA_eq_none_of_keys {β : Type} (l : List (String × β)) (k : String)
    (h : ∀ kv ∈ l, kv.1 ≠ k) : lookupA l k = none := by
  induction l with
  | nil => rfl
  | cons kv rest ih =>
    have h1 : kv.1 ≠ k := h kv (List.mem_cons_self kv rest)
    simp only [lookupA, if_neg h1]
    exact ih fun kv' hkv' => h kv' (List.mem_cons_of_mem kv hkv')

theorem length_procFields (fields : List String) (ren : String → String)
    (fd : List (String × FieldVal)) :
    (procFields fields ren fd).length = (fields.filter (rawDefined fd)).length := by
  induction fields with
  | nil => rfl
  | cons f rest ih =>
    rw [procFields, List.filterMap_cons] at *
    cases hf : lookupA fd f with
    | none => simp [hf, List.filter_cons, rawDefined, ih]
    | some v =>
      by_cases ht : pyTruthy v <;>
        simp [hf, ht, List.filter_cons, rawDefined, ih]

theorem completed_procFields (fields : List String) (ren : String → String)
    (fd : List (String × FieldVal)) :
    ((procFields fields ren fd).filter (fun kv => completedField kv.2)).length =
      (fields.filter (fieldCompleted fd)).length := by
  induction fields with
  | nil => rfl
  | cons f rest ih =>
    rw [procFields, List.filterMap_cons] at *
    cases hf : lookupA fd f with
    | none => simp [hf, List.filter_cons, fieldCompleted, ih]
    | some v =>
      by_cases ht : pyTruthy v
      · by_cases hc : completedField (_sanitize_field v) <;>
          simp [hf, ht, hc, List.filter_cons, fieldCompleted, ih]
      · simp [hf, ht, List.filter_cons, fieldCompleted, ih]


theorem procFields_eq (fields : List String) (ren : String → String)
    (fd : List (String × FieldVal)) :
    procFields fields ren fd =
      fields.filterMap (fun f => (rawFieldPlacement fd f).map (fun w => (ren f, w))) := by
  unfold procFields rawFieldPlacement
  congr 1
  funext f
  cases lookupA fd f with
  | none => rfl
  | some v => by_cases ht : pyTruthy v <;> simp [ht]

theorem lookupA_procFields_none (fields : List String) (ren : String → String)
    (fd : List (String × FieldVal)) (k : String) (hk : k ∉ fields.map ren) :
    lookupA (procFields fields ren fd) k = none := by
  rw [procFields_eq]
  apply lookupA_eq_none_of_keys
  intro kv hkv
  obtain ⟨k1, k2⟩ := kv
  simp only [List.mem_filterMap] at hkv
  obtain ⟨f, hf, hkv⟩ := hkv
  cases hplace : rawFieldPlacement fd f with
  | none => rw [hplace] at hkv; simp at hkv
  | some w =>
    rw [hplace] at hkv
    simp only [Option.map_some', Option.some.injEq, Prod.mk.injEq] at hkv
    intro hcontra
    apply hk
    rw [← hcontra, ← hkv.1]
    exact List.mem_map_of_mem ren hf

theorem lookupA_procFields (fields : List String) (ren : String → String)
    (fd : List (String × FieldVal)) (f : String) (hf : f ∈ fields)
    (hnd : (fields.map ren).Nodup) :
    lookupA (procFields fields ren fd) (ren f) = rawFieldPlacement fd f := by
  induction fields with
  | nil => cases hf
  | cons g rest ih =>
    rw [List.map_cons, List.nodup_cons] at hnd
    rw [procFields_eq, List.filterMap_cons]
    rcases List.mem_cons.mp hf with rfl | htail
    · cases hg : rawFieldPlacement fd f with
      | none =>
        simp only [hg, Option.map_none', List.filterMap_cons_none]
        rw [← procFields_eq, lookupA_procFields_none rest ren fd (ren f) hnd.1]
      | some w =>
        simp [hg, lookupA]
    · have hne : ren g ≠ ren f := by
        intro hcontra
        exact hnd.1 (hcontra ▸ List.mem_map_of_mem ren htail)
      cases hg : rawFieldPlacement fd g with
      | none =>
        simp only [hg, Option.map_none', List.filterMap_cons_none]
        rw [← procFields_eq]
        exact ih htail hnd.2
      | some w =>
        simp only [hg, Option.map_some', List.filterMap_cons_some, lookupA, if_neg hne]
        rw [← procFields_eq]
        exact ih htail hnd.2

theorem sectionKept_fieldsSec (fs : List (String × FieldVal)) :
    sectionKept (SecVal.fieldsSec fs) = fs.any (fun kv => pyTruthy kv.2) := by
  cases fs <;> simp [sectionKept]

theorem lookupA_secmap (specs : List SectionSpec) (fd : List (String × FieldVal))
    (sp : SectionSpec) (hsp : sp ∈ specs)
    (hnd : (specs.map SectionSpec.name).Nodup) :
    lookupA ((specs.map (fun s => (s.name, SecVal.fieldsSec (procSection s fd)))).filter
        (fun kv => sectionKept kv.2)) sp.name =
      if (procSection sp fd).any (fun kv => pyTruthy kv.2) then
        some (SecVal.fieldsSec (procSection sp fd))
      else none := by
  induction specs with
  | nil => cases hsp
  | cons s0 rest ih =>
    rw [List.map_cons, List.nodup_cons] at hnd
    rw [List.map_cons, List.filter_cons]
    rcases List.mem_cons.mp hsp with rfl | htail
    · simp only [sectionKept_fieldsSec]
      by_cases hk : (procSection sp fd).any (fun kv => pyTruthy kv.2)
      · rw [if_pos hk, if_pos hk]
        simp [lookupA]
      · rw [if_neg hk, if_neg hk]
        apply lookupA_eq_none_of_keys
        intro kv hkv
        have h2 := (List.mem_filter.mp hkv).1
        simp only [List.mem_map] at h2
        obtain ⟨s, hs, rfl⟩ := h2
        intro hcontra
        exact hnd.1 (hcontra ▸ List.mem_map_of_mem SectionSpec.name hs)
    · have hname : sp.name ∈ rest.map SectionSpec.name :=
        List.mem_map_of_mem SectionSpec.name htail
      have hne : s0.name ≠ sp.name := fun hcontra => hnd.1 (hcontra ▸ hname)
      by_cases hk0 : sectionKept (SecVal.fieldsSec (procSection s0 fd))
      · rw [if_pos hk0]
        simp only [lookupA, if_neg hne]
        exact ih htail hnd.2
      · rw [if_neg hk0]
        exact ih htail hnd.2

theorem map_structured_sections (fd : List (String × FieldVal)) :
    (structured_sections fd).map (fun s => (s.1, SecVal.fieldsSec s.2)) =
      sectionSpecs.map (fun s => (s.name, SecVal.fieldsSec (procSection s fd))) := by
  rw [structured_sections, List.map_map]
  rfl

theorem sectionFields_convert (now : String) (fd : List (String × FieldVal))
    (sp : SectionSpec) (hsp : sp ∈ sectionSpecs) :
    sectionFields (convert_form_to_json now fd) sp.name =
      if (procSection sp fd).any (fun kv => pyTruthy kv.2) then
        some (procSection sp fd)
      else none := by
  have hnd : (sectionSpecs.map SectionSpec.name).Nodup := by decide
  have hname : sp.name ≠ "processing_info" := by
    simp only [sectionSpecs, List.mem_cons, List.not_mem_nil, or_false] at hsp
    rcases hsp with rfl | rfl | rfl | rfl | rfl | rfl | rfl <;> decide
  simp only [convert_form_to_json, sectionFields]
  rw [List.filter_append, lookupA_append, map_structured_sections,
    lookupA_secmap sectionSpecs fd sp hsp hnd]
  by_cases hk : (procSection sp fd).any (fun kv => pyTruthy kv.2)
  · rw [if_pos hk, if_pos hk]
  · rw [if_neg hk, if_neg hk]
    simp [sectionKept, lookupA, Ne.symm hname]

theorem docScore_convert (now : String) (fd : List (String × FieldVal)) :
    docScore (convert_form_to_json now fd) =
      some (_calculate_completeness_score (structured_sections fd)) := by
  simp only [convert_form_to_json, docScore]
  rw [List.filter_append, lookupA_append, map_structured_sections]
  have h1 : lookupA ((sectionSpecs.map
      (fun s => (s.name, SecVal.fieldsSec (procSection s fd)))).filter
        (fun kv => sectionKept kv.2)) "processing_info" = none := by
    apply lookupA_eq_none_of_keys
    intro kv hkv
    have h2 := (List.mem_filter.mp hkv).1
    simp only [List.mem_map] at h2
    obtain ⟨s, hs, rfl⟩ := h2
    show s.name ≠ "processing_info"
    simp only [sectionSpecs, List.mem_cons, List.not_mem_nil, or_false] at hs
    rcases hs with rfl | rfl | rfl | rfl | rfl | rfl | rfl <;> decide
  rw [h1]
  simp [sectionKept, lookupA]

theorem scoreCounts_structured (fd : List (String × FieldVal)) :
    scoreCounts (structured_sections fd) = (specDefinedCount fd, specNonEmptyCount fd) := by
  have h : scoreCounts (structured_sections fd) =
      (0 + (procFields ["first_name", "last_name", "date_of_birth"] id fd).length
         + (procFields ["phone", "email"] id fd).length
         + (procFields ["street_address", "city", "state", "zip_code"] id fd).length
         + (procFields ["emergency_contact_name", "emergency_contact_phone",
              "emergency_contact_relationship"] emergencyOutKey fd).length
         + (procFields ["reason_for_visit"] id fd).length,
       0 + ((procFields ["first_name", "last_name", "date_of_birth"] id fd).filter
              (fun kv => completedField kv.2)).length
         + ((procFields ["phone", "email"] id fd).filter
              (fun kv => completedField kv.2)).length
         + ((procFields ["street_address", "city", "state", "zip_code"] id fd).filter
              (fun kv => completedField kv.2)).length
         + ((procFields ["emergency_contact_name", "emergency_contact_phone",
              "emergency_contact_relationship"] emergencyOutKey fd).filter
              (fun kv => completedField kv.2)).length
         + ((procFields ["reason_for_visit"] id fd).filter
              (fun kv => completedField kv.2)).length) := rfl
  rw [h]
  have hsplit : requiredishFields =
      ["first_name", "last_name", "date_of_birth"] ++ (["phone", "email"]
        ++ (["street_address", "city", "state", "zip_code"]
          ++ (["emergency_contact_name", "emergency_contact_phone",
               "emergency_contact_relationship"] ++ ["reason_for_visit"]))) := rfl
  rw [specDefinedCount, specNonEmptyCount, hsplit]
  simp only [List.filter_append, List.length_append, length_procFields, completed_procFields,
    Prod.mk.injEq]
  constructor <;> omega

/-- Evaluation of `validate_token` on a freshly minted token: accepted
exactly when the elapsed time is at most 24 hours, rejected (as `None`)
otherwise. -/
theorem validate_generate_eval (secret : String) (T : Int) (nonce s c : String)
    (now : Int) :
    validate_token secret now (generate_token secret T nonce s c) =
      if now - T > 86400 then ValidateResult.invalid
      else ValidateResult.ok ⟨s, c, T, nonce⟩ := by
  simp only [validate_token, generate_token, token_expiry, sign]
  norm_num
  intro h
  rw [if_pos h]

/-! ## Claim theorems -/

/-- C2: for every non-empty subject identifier `s` and scope `c`, verifying a
token immediately after minting it with the same secret succeeds and returns
claims whose `patient_id` is `s` and whose `clinic_id` is `c`. -/
theorem C2_mint_verify_round_trip (secret : String) (now : Int) (nonce s c : String)
    (h : s ≠ "") :
    validate_token secret now (generate_token secret now nonce s c) =
      ValidateResult.ok ⟨s, c, now, nonce⟩ := by
  rw [validate_generate_eval]
  norm_num

/-- Witness for C2 at a concrete subject and clinic. -/
theorem C2_mint_verify_round_trip_witness :
    validate_token "k" 0 (generate_token "k" 0 "n1" "pt-1" "default") =
      ValidateResult.ok ⟨"pt-1", "default", 0, "n1"⟩ :=
  C2_mint_verify_round_trip "k" 0 "n1" "pt-1" "default" (by decide)

/-- C3: a token minted at `T` is accepted at `T + 23h59m` and rejected (as
the `None` outcome) at `T + 24h + 1s`; in general, for every later
verification instant `T + d`, acceptance holds exactly when `d ≤ 24h`, the
window enforced both by the signature-age check and by the redundant
`created_at` check. -/
theorem C3_token_expiry_window (secret : String) (T : Int) (nonce s c : String) :
    validate_token secret (T + 86340) (generate_token secret T nonce s c) =
      ValidateResult.ok ⟨s, c, T, nonce⟩ ∧
    validate_token secret (T + 86401) (generate_token secret T nonce s c) =
      ValidateResult.invalid ∧
    ∀ d : ℕ, (validate_token secret (T + d) (generate_token secret T nonce s c) =
        ValidateResult.ok ⟨s, c, T, nonce⟩ ↔ (d : Int) ≤ 24 * 60 * 60) := by
  refine ⟨?_, ?_, ?_⟩
  · rw [validate_generate_eval]
    norm_num
  · rw [validate_generate_eval]
    norm_num
  · intro d
    rw [validate_generate_eval]
    by_cases hd : (d : Int) ≤ 86400
    · rw [if_neg (by omega)]
      simp [hd]
    · rw [if_pos (by omega)]
      constructor
      · intro hcontra
        exact absurd hcontra (by simp)
      · intro hcontra
        omega

/-- C4: evaluation of `validate_token` at tokens carrying a valid signature
over a payload the success path cannot parse.  The `except` clause catches
only `SignatureExpired`, `BadSignature` and `ValueError`, so a signed dict
without `created_at` raises `KeyError`, signed non-JSON raises `BadPayload`,
and signed non-dict JSON raises `TypeError` — all escaping to the caller
instead of collapsing to the `None` outcome. -/
theorem C4_validate_token_uncaught_exceptions :
    validate_token "k" 0
        ⟨TokenBody.dictNoCreatedAt ["patient_id"], 0,
         sign "k" (TokenBody.dictNoCreatedAt ["patient_id"]) 0⟩ =
      ValidateResult.raised PyExn.keyError ∧
    validate_token "k" 0 ⟨TokenBody.notJson, 0, sign "k" TokenBody.notJson 0⟩ =
      ValidateResult.raised PyExn.badPayload ∧
    validate_token "k" 0 ⟨TokenBody.jsonNonDict, 0, sign "k" TokenBody.jsonNonDict 0⟩ =
      ValidateResult.raised PyExn.typeError := by decide

/-- C9 counterexample: minting with an empty subject identifier does not
fail — it returns a well-formed signed token that validates successfully,
carrying the empty `patient_id`. -/
theorem C9_empty_subject_counterexample :
    validate_token "k" 0 (generate_token "k" 0 "n1" "" "default") =
      ValidateResult.ok ⟨"", "default", 0, "n1"⟩ := by decide

/-- C9 amended: `generate_token` performs no validation of its subject
argument; for every secret, instant, nonce and clinic it returns a
well-formed signed token for the empty subject identifier, and that token
verifies successfully.  (Only omitting the argument at the Python call site
fails, with a `TypeError` raised by the language, not by the function.) -/
theorem C9_no_subject_validation (secret : String) (now : Int) (nonce c : String) :
    validate_token secret now (generate_token secret now nonce "" c) =
      ValidateResult.ok ⟨"", c, now, nonce⟩ := by
  rw [validate_generate_eval]
  norm_num

/-- C10: `format_phone_number` returns a result exactly when the input
stripped to digits has length 10 or has length 11 and starts with `1`
(raising `ValueError` otherwise), and every returned value is `+` followed
by exactly 11 digits of which the first is `1`. -/
theorem C10_format_phone_number_shape (p : List Char) :
    ((∃ r, format_phone_number p = Except.ok r) ↔
      ((p.filter Char.isDigit).length = 10 ∨
        ((p.filter Char.isDigit).length = 11 ∧
          (p.filter Char.isDigit).head? = some '1'))) ∧
    (∀ r, format_phone_number p = Except.ok r →
      (r.head? = some '+' ∧ r.tail.length = 11 ∧ r.tail.head? = some '1' ∧
        r.tail.all Char.isDigit = true)) := by
  have hdig : ∀ c ∈ p.filter Char.isDigit, c.isDigit = true := by
    intro c hc
    exact (List.mem_filter.mp hc).2
  constructor
  · constructor
    · rintro ⟨r, hr⟩
      simp only [format_phone_number] at hr
      split_ifs at hr with h1 h2
      · exact Or.inl h1
      · exact Or.inr h2
    · intro hcond
      simp only [format_phone_number]
      by_cases h1 : (p.filter Char.isDigit).length = 10
      · rw [if_pos h1]; exact ⟨_, rfl⟩
      · rcases hcond with h1' | h2
        · exact absurd h1' h1
        · rw [if_neg h1, if_pos h2]; exact ⟨_, rfl⟩
  · intro r hr
    simp only [format_phone_number] at hr
    split_ifs at hr with h1 h2
    · cases hr
      refine ⟨rfl, by simp [h1], rfl, ?_⟩
      simp only [List.tail_cons, List.all_cons, Bool.and_eq_true]
      exact ⟨rfl, List.all_eq_true.mpr hdig⟩
    · cases hr
      refine ⟨rfl, by simp [h2.1], by simp [h2.2], ?_⟩
      simp only [List.tail_cons]
      exact List.all_eq_true.mpr hdig

/-- Witness for C10 at a concrete ten-digit input. -/
theorem C10_format_phone_number_shape_witness :
    (('+' :: '1' :: "5550100000".toList).head? = some '+' ∧
     ('+' :: '1' :: "5550100000".toList).tail.length = 11 ∧
     ('+' :: '1' :: "5550100000".toList).tail.head? = some '1' ∧
     ('+' :: '1' :: "5550100000".toList).tail.all Char.isDigit = true) :=
  (C10_format_phone_number_shape "555-010-0000".toList).2
    ('+' :: '1' :: "5550100000".toList) rfl

/-- C5 counterexample: sanitization is not idempotent.  For the string
`"a \x00"` (letter, space, NUL), stripping removes nothing (the ends are not
whitespace after the letter side, and NUL is not whitespace), the control
filter then drops the NUL leaving `"a "`, which a second application strips
to `"a"`. -/
theorem C5_sanitize_not_idempotent :
    _sanitize_field (_sanitize_field (FieldVal.vstr ['a', ' ', Char.ofNat 0])) ≠
      _sanitize_field (FieldVal.vstr ['a', ' ', Char.ofNat 0]) := by decide

/-- C5 amended: sanitization is idempotent on every string that contains no
character below code point 32 (for such strings the control filter is the
identity, so only the idempotent strip acts); the counterexample shows the
restriction is necessary when control characters shield outer whitespace. -/
theorem C5_sanitize_idempotent_ctl_free (s : List Char)
    (h : ∀ c ∈ s, 32 ≤ c.toNat) :
    _sanitize_field (_sanitize_field (FieldVal.vstr s)) =
      _sanitize_field (FieldVal.vstr s) := by
  have hmem : ∀ c ∈ pyStrip s, 32 ≤ c.toNat :=
    fun c hc => h c (mem_of_mem_pyStrip s c hc)
  have h1 : stripCtl (pyStrip s) = pyStrip s := stripCtl_eq_self _ hmem
  by_cases hs : s.isEmpty
  · have hnil : s = [] := by simpa using hs
    subst hnil
    decide
  · have hs' : s.isEmpty = false := by simpa using hs
    by_cases h2 : (pyStrip s).isEmpty
    · simp [_sanitize_field, pyTruthy, hs', h1, h2]
    · have h2' : (pyStrip s).isEmpty = false := by simpa using h2
      simp [_sanitize_field, pyTruthy, hs', h1, h2', pyStrip_idem,
        stripCtl_eq_self (pyStrip s) hmem]

/-- Witness for the amended C5 at a control-free string. -/
theorem C5_sanitize_idempotent_ctl_free_witness :
    _sanitize_field (_sanitize_field (FieldVal.vstr " ab ".toList)) =
      _sanitize_field (FieldVal.vstr " ab ".toList) :=
  C5_sanitize_idempotent_ctl_free " ab ".toList (by decide)

/-- C6: in the pediatric submission loop every raw field (a list of strings,
as produced by `to_dict(flat=False)`) is collapsed to its bare element when
it has exactly one element and kept as the same ordered list when it has
more than one; and `_sanitize_field` passes a nonempty list value through
unchanged. -/
theorem C6_multi_value_collapse :
    (∀ (fd : List (String × List (List Char))) (k : String) (v : List (List Char)),
      (k, v) ∈ fd →
        ((k, collapse_field v) ∈ build_pediatric_data fd ∧
         (∀ x, v = [x] → collapse_field v = PedVal.s x) ∧
         (1 < v.length → collapse_field v = PedVal.l v))) ∧
    (∀ xs : List (List Char), _sanitize_field (FieldVal.vlist xs) =
      if xs.isEmpty then FieldVal.vnone else FieldVal.vlist xs) := by
  constructor
  · intro fd k v hmem
    refine ⟨?_, ?_, ?_⟩
    · exact List.mem_map_of_mem (fun kv => (kv.1, collapse_field kv.2)) hmem
    · rintro x rfl
      rfl
    · intro hlen
      rcases v with _ | ⟨x, _ | ⟨y, t⟩⟩
      · simp at hlen
      · simp at hlen
      · rfl
  · intro xs
    cases xs <;> simp [_sanitize_field, pyTruthy]

/-- Witness for C6 at a one-element and a two-element checkbox group. -/
theorem C6_multi_value_collapse_witness :
    ("a", PedVal.s "x".toList) ∈
        build_pediatric_data [("a", ["x".toList]), ("b", ["x".toList, "y".toList])] ∧
    collapse_field ["x".toList, "y".toList] = PedVal.l ["x".toList, "y".toList] := by
  have h1 := C6_multi_value_collapse.1 [("a", ["x".toList]), ("b", ["x".toList, "y".toList])]
      "a" ["x".toList] (by decide)
  have h2 := C6_multi_value_collapse.1 [("a", ["x".toList]), ("b", ["x".toList, "y".toList])]
      "b" ["x".toList, "y".toList] (by decide)
  exact ⟨h1.1, h2.2.2 (by decide)⟩

/-- C1: for every submission, the completeness score placed in
`processing_info` equals the number of populated required-ish fields divided
by the number of defined required-ish fields, times 100, rounded to two
decimal places (0 when no required-ish field is defined); a submission
defining six such fields of which three are populated scores 50. -/
theorem C1_completeness_score :
    (∀ (now : String) (fd : List (String × FieldVal)),
      docScore (convert_form_to_json now fd) =
        some (if specDefinedCount fd = 0 then 0
              else round2 ((specNonEmptyCount fd : ℚ) / (specDefinedCount fd : ℚ) * 100))) ∧
    docScore (convert_form_to_json "2024-01-01T00:00:00" exThreeOfSix) = some 50 := by
  constructor
  · intro now fd
    rw [docScore_convert]
    simp only [_calculate_completeness_score, scoreCounts_structured]
  · rw [docScore_convert]
    have h6 : specDefinedCount exThreeOfSix = 6 := by decide
    have h3 : specNonEmptyCount exThreeOfSix = 3 := by decide
    simp only [_calculate_completeness_score, scoreCounts_structured, h6, h3]
    norm_num [round2, round_eq]

/-- C7 counterexample: a raw `date_of_birth` of a single space is truthy, so
its key is placed although its sanitized value is empty, and the returned
document binds the key to the `None` placeholder (its section survives
thanks to the populated `first_name`). -/
theorem C7_null_placeholder_counterexample :
    sectionLookup (convert_form_to_json "2024-01-01T00:00:00" exNullPlaceholder)
        "personal_information" "date_of_birth" = some FieldVal.vnone := by decide

/-- C7 amended: for every section of the mapping and every raw field of that
section, the returned document binds the field's output key exactly when the
raw field is present with a truthy value and the assembled section has at
least one truthy sanitized value (otherwise the whole section is dropped);
the bound value is the sanitized value, which is the `None` placeholder when
sanitization empties the field. -/
theorem C7_key_placement (now : String) (fd : List (String × FieldVal))
    (sp : SectionSpec) (f : String) (hsp : sp ∈ sectionSpecs) (hf : f ∈ sp.fields) :
    sectionLookup (convert_form_to_json now fd) sp.name (sp.outKey f) =
      if (procSection sp fd).any (fun kv => pyTruthy kv.2) then rawFieldPlacement fd f
      else none := by
  have hnd : (sp.fields.map sp.outKey).Nodup := by
    simp only [sectionSpecs, List.mem_cons, List.not_mem_nil, or_false] at hsp
    rcases hsp with rfl | rfl | rfl | rfl | rfl | rfl | rfl <;> decide
  simp only [sectionLookup]
  rw [sectionFields_convert now fd sp hsp]
  by_cases hk : (procSection sp fd).any (fun kv => pyTruthy kv.2)
  · rw [if_pos hk, if_pos hk]
    show lookupA (procSection sp fd) (sp.outKey f) = rawFieldPlacement fd f
    exact lookupA_procFields sp.fields sp.outKey fd f hf hnd
  · rw [if_neg hk, if_neg hk]

/-- Witness for the amended C7: the populated `first_name` of the
counterexample submission appears under its key in the kept section. -/
theorem C7_key_placement_witness :
    sectionLookup (convert_form_to_json "t" exNullPlaceholder)
        "personal_information" "first_name" = some (FieldVal.vstr "Jane".toList) := by
  have h := C7_key_placement "t" exNullPlaceholder
      ⟨"personal_information", ["first_name", "last_name", "date_of_birth"], id⟩
      "first_name" (by simp only [sectionSpecs]; exact List.Mem.head _) (by decide)
  exact h.trans (by decide)

/-- C8: every field section present in the returned document has at least
one truthy value (empty sections are dropped), and the submission carrying
only `reason_for_visit` yields exactly the visit section plus
`processing_info`. -/
theorem C8_empty_sections_dropped :
    (∀ (now : String) (fd : List (String × FieldVal)) (sec : String)
        (fs : List (String × FieldVal)),
        (sec, SecVal.fieldsSec fs) ∈ convert_form_to_json now fd →
          fs.any (fun kv => pyTruthy kv.2) = true) ∧
    convert_form_to_json "2024-01-01T00:00:00" exVisitOnly =
      [("visit_information",
        SecVal.fieldsSec [("reason_for_visit", FieldVal.vstr "checkup".toList)]),
       ("processing_info",
        SecVal.infoSec ⟨"2024-01-01T00:00:00", "2.0", 1, 100⟩)] := by
  constructor
  · intro now fd sec fs hmem
    simp only [convert_form_to_json] at hmem
    have hkept : sectionKept (SecVal.fieldsSec fs) = true := (List.mem_filter.mp hmem).2
    rw [sectionKept_fieldsSec] at hkept
    exact hkept
  · have h1 : specDefinedCount exVisitOnly = 1 := by decide
    have h1' : specNonEmptyCount exVisitOnly = 1 := by decide
    have hscore : _calculate_completeness_score (structured_sections exVisitOnly) = 100 := by
      simp only [_calculate_completeness_score, scoreCounts_structured, h1, h1']
      norm_num [round2, round_eq]
    have h0 : convert_form_to_json "2024-01-01T00:00:00" exVisitOnly =
        [("visit_information",
          SecVal.fieldsSec [("reason_for_visit", FieldVal.vstr "checkup".toList)]),
         ("processing_info",
          SecVal.infoSec ⟨"2024-01-01T00:00:00", "2.0", 1,
            _calculate_completeness_score (structured_sections exVisitOnly)⟩)] := rfl
    rw [h0, hscore]

/-- Witness for C8: the visit section of the single-field submission indeed
has a truthy value. -/
theorem C8_empty_sections_dropped_witness :
    ([("reason_for_visit", FieldVal.vstr "checkup".toList)].any
      (fun kv => pyTruthy kv.2)) = true :=
  C8_empty_sections_dropped.1 "2024-01-01T00:00:00" exVisitOnly "visit_information"
    [("reason_for_visit", FieldVal.vstr "checkup".toList)] (by decide)
